import Mathlib

/-!
Shallow embedding of the arXiv crawler under `src/`: the downloader's
version-probing and retry loop (`downloader.py`), the discovery probe
(`discovery.py`), the identifier conversions (`downloader.py`,
`metadata.py`, `refs.py`), the reference fetcher's rate gate (`refs.py`),
the orchestrator's per-identifier loop and cleanup (`main.py`), the
resource sampler's interruptible wait and bounded join (`benchmark.py`),
the metadata writer (`metadata.py`), and the archive-extraction cleanup
(`cleaner.py`).  Remote services, the clock and the file system are
explicit oracles; every delay constant in the source (1, 2, 3, 5, 10
seconds and the doublings 5·2^a) is integral, so time is modelled by `Nat`
seconds.
-/

namespace Crawler

/-- Outcome of one `requests.get` call in `downloader.download_all_versions`:
an HTTP status code, a `requests.exceptions.Timeout`, or any other raised
exception. -/
inductive HttpOutcome where
  | status (code : Nat)
  | timeout
  | error
deriving DecidableEq, Repr

/-- Observable events of `download_all_versions`: `request v a` is the
`requests.get` for version `v` at 0-based attempt index `a`; `backoff d`
is a `time.sleep(d)` inside the retry loop (429 backoff or timeout retry);
`pace d` is the post-success / inter-paper `time.sleep(max(3.0, rate_limit))`;
`write v` persists the response body for version `v`; `acquire` is a
rate-gate grant — the downloader code never emits one (the constructor
exists so that its absence in a trace is expressible). -/
inductive DlEvent where
  | acquire
  | request (v a : Nat)
  | backoff (d : Nat)
  | pace (d : Nat)
  | write (v : Nat)
deriving DecidableEq, Repr

/-- How the inner `for attempt in range(max_retries)` loop of
`download_all_versions` ends for one version: `success` is the `break`
after writing the file (move on to the next version), `stop` is a
`return versions`, and `exhausted` is the unreachable fall-through of the
`for` loop (the outer loop would then continue without appending). -/
inductive AttemptResult where
  | success
  | stop
  | exhausted
deriving DecidableEq, Repr

/-- Embedding of the inner retry loop of `download_all_versions`
(`downloader.py` lines 96–148).  `resp v a` is the oracle for the
`requests.get` outcome for version `v` at 0-based attempt `a`; `rl` is the
`rate_limit` argument; the last argument counts the remaining iterations
(initially `max_retries = 3`).  Branches, in source order: 200 writes the
file, sleeps `max(3, rate_limit)` and breaks; 404 returns; 429 sleeps
`retry_delay * 2 ** attempt = 5 * 2^a` and retries unless this is the last
attempt; any other status returns; a timeout sleeps the fixed
`retry_delay = 5` and retries unless this is the last attempt; any other
exception returns. -/
def attemptLoop (resp : Nat → Nat → HttpOutcome) (rl : Nat) (v : Nat) :
    Nat → Nat → List DlEvent × AttemptResult
  | _, 0 => ([], .exhausted)
  | a, remaining + 1 =>
    match resp v a with
    | .status 200 => ([.request v a, .write v, .pace (max 3 rl)], .success)
    | .status 404 => ([.request v a], .stop)
    | .status 429 =>
      if remaining = 0 then ([.request v a], .stop)
      else
        let r := attemptLoop resp rl v (a + 1) remaining
        (.request v a :: .backoff (5 * 2 ^ a) :: r.1, r.2)
    | .status _ => ([.request v a], .stop)
    | .timeout =>
      if remaining = 0 then ([.request v a], .stop)
      else
        let r := attemptLoop resp rl v (a + 1) remaining
        (.request v a :: .backoff 5 :: r.1, r.2)
    | .error => ([.request v a], .stop)

/-- Embedding of the outer `for v in range(1, 11)` loop of
`download_all_versions` (`downloader.py` lines 83–152): versions are
probed in order starting at `v`; a `success` appends the version and
continues, a `stop` returns the versions collected so far, and after the
loop the code sleeps `max(3, rate_limit)` and returns.  Returns the
collected version numbers together with the event trace. -/
def versionLoop (resp : Nat → Nat → HttpOutcome) (rl : Nat) :
    Nat → Nat → List Nat × List DlEvent
  | _, 0 => ([], [.pace (max 3 rl)])
  | v, fuel + 1 =>
    let r := attemptLoop resp rl v 0 3
    match r.2 with
    | .success =>
      let rest := versionLoop resp rl (v + 1) fuel
      (v :: rest.1, r.1 ++ rest.2)
    | .stop => ([], r.1)
    | .exhausted =>
      let rest := versionLoop resp rl (v + 1) fuel
      (rest.1, r.1 ++ rest.2)

/-- Body of `download_all_versions` after the identifier conversion:
probe versions 1.. with the guardrail `range(1, 11)` (at most 10). -/
def downloadAllVersions (resp : Nat → Nat → HttpOutcome) (rl : Nat) :
    List Nat × List DlEvent :=
  versionLoop resp rl 1 10

/-- Outcome of one probe in `discovery.check_paper_exists`:
`found` means `next(client.results(search))` yielded a paper, `missing`
means it raised `StopIteration` (version absent), `error` means any other
exception was raised. -/
inductive ProbeOutcome where
  | found
  | missing
  | error
deriving DecidableEq, Repr

/-- Embedding of the `for v in range(1, 11)` loop of
`discovery.check_paper_exists` (`discovery.py` lines 48–61): on `found`
the version is appended and probing continues; on `missing`
(`StopIteration`) the loop breaks; on any other exception the code logs a
warning, sleeps 2 seconds and — crucially — falls through to the next
iteration without appending. -/
def checkLoop (probe : Nat → ProbeOutcome) : Nat → Nat → List Nat
  | _, 0 => []
  | v, fuel + 1 =>
    match probe v with
    | .found => v :: checkLoop probe (v + 1) fuel
    | .missing => []
    | .error => checkLoop probe (v + 1) fuel

/-- List of version numbers returned by `check_paper_exists` (the
`f"{base_id}v{v}"` strings are in bijection with these numbers). -/
def checkPaperExists (probe : Nat → ProbeOutcome) : List Nat :=
  checkLoop probe 1 10

/-- Versions actually probed by `check_paper_exists`, in order: every
iteration issues one `arxiv.Search`, and the loop breaks right after a
`missing` probe. -/
def checkProbedLoop (probe : Nat → ProbeOutcome) : Nat → Nat → List Nat
  | _, 0 => []
  | v, fuel + 1 =>
    match probe v with
    | .found => v :: checkProbedLoop probe (v + 1) fuel
    | .missing => [v]
    | .error => v :: checkProbedLoop probe (v + 1) fuel

/-- Versions probed by a full `check_paper_exists` run. -/
def checkProbed (probe : Nat → ProbeOutcome) : List Nat :=
  checkProbedLoop probe 1 10

/-- Rate-limited requests issued by a trace: the number of `request` events. -/
def requestCount (evs : List DlEvent) : Nat :=
  evs.countP (fun e => match e with | .request _ _ => true | _ => false)

/-- Total seconds slept in retry backoffs (the `time.sleep` calls of the
429/timeout branches), not counting the post-success pacing sleep. -/
def backoffTotal (evs : List DlEvent) : Nat :=
  (evs.map (fun e => match e with | .backoff d => d | _ => 0)).sum

/-- Version numbers of the `request` events of a trace, in order. -/
def reqVersions (evs : List DlEvent) : List Nat :=
  evs.filterMap (fun e => match e with | .request v _ => some v | _ => none)

/-- Service oracle succeeding (HTTP 200) for versions 1–3 and reporting
absence (HTTP 404) from version 4 on. -/
def dlRespV3 : Nat → Nat → HttpOutcome :=
  fun v _ => if v ≤ 3 then .status 200 else .status 404

/-- Discovery oracle: versions 1–3 found, search-miss afterwards. -/
def probeV3 : Nat → ProbeOutcome :=
  fun v => if v ≤ 3 then .found else .missing

/-- Discovery oracle: versions 1 and 3 found, a generic (transient) error
at version 2, search-miss from version 4 on. -/
def gapProbe : Nat → ProbeOutcome :=
  fun v => if v = 2 then .error else if v ≤ 3 then .found else .missing

/-- Download oracle: HTTP 429 on the first two attempts of every version,
HTTP 200 on the third (0-based attempt indices 0, 1 → 429; 2 → 200). -/
def resp429 : Nat → Nat → HttpOutcome :=
  fun _ a => if a ≤ 1 then .status 429 else .status 200

/-- Python string slicing `s[i:j]` for nonnegative bounds, which clamps
out-of-range indices instead of failing, on the character list of the
string. -/
def pySlice (s : List Char) (i j : Nat) : List Char := (s.take j).drop i

/-- Python `s.split("-")` on the character list: split at every dash,
keeping empty segments; the empty string splits to one empty segment. -/
def splitDash : List Char → List (List Char)
  | [] => [[]]
  | c :: rest =>
    let r := splitDash rest
    if c = '-' then [] :: r
    else
      match r with
      | [] => [[c]]
      | seg :: segs => (c :: seg) :: segs

/-- Common body of the three `_convert_id_format` functions applied to a
well-formed split `[yyyymm, nnnnn]`: with `year = yyyymm[:4]`,
`month = yyyymm[4:6]` and `yy = year[2:]`, build `f"{yy}{month}.{nnnnn}"`. -/
def mkApiId (yyyymm nnnnn : List Char) : String :=
  let year := pySlice yyyymm 0 4
  let month := pySlice yyyymm 4 6
  let yy := year.drop 2
  String.mk (yy ++ month) ++ "." ++ String.mk nnnnn

/-- Error raised by an identifier conversion (Python `ValueError`, the
spec's FormatError). -/
structure FormatError where
  message : String
deriving DecidableEq, Repr

/-- Embedding of `downloader._convert_id_format` (`downloader.py` lines
48–66): split the identifier on `"-"`; unless the split has exactly two
parts, raise `ValueError(f"Invalid base_id format: {base_id}")`. -/
def dlConvertIdFormat (base_id : String) : Except FormatError String :=
  match splitDash base_id.data with
  | [yyyymm, nnnnn] => .ok (mkApiId yyyymm nnnnn)
  | _ => .error ⟨"Invalid base_id format: " ++ base_id⟩

/-- Embedding of `metadata._convert_id_format` (`metadata.py` lines
12–27), whose body is identical to the downloader's. -/
def metaConvertIdFormat (base_id : String) : Except FormatError String :=
  match splitDash base_id.data with
  | [yyyymm, nnnnn] => .ok (mkApiId yyyymm nnnnn)
  | _ => .error ⟨"Invalid base_id format: " ++ base_id⟩

/-- Embedding of `refs._convert_id_format` (`refs.py` lines 29–46): same
split and slicing, but on a wrong segment count it returns the input
unchanged ("Return as-is if format is unexpected") instead of raising. -/
def refsConvertIdFormat (base_id : String) : String :=
  match splitDash base_id.data with
  | [yyyymm, nnnnn] => mkApiId yyyymm nnnnn
  | _ => base_id

/-- Full `download_all_versions` (`downloader.py` lines 68–152): the
identifier conversion runs first and its `ValueError` propagates to the
caller; otherwise the version probing runs. -/
def downloadAllVersionsFull (resp : Nat → Nat → HttpOutcome) (rl : Nat)
    (base_id : String) : Except FormatError (List Nat × List DlEvent) :=
  match dlConvertIdFormat base_id with
  | .error e => .error e
  | .ok _ => .ok (downloadAllVersions resp rl)

/-- JSON values appearing in the `metadata.json` documents. -/
inductive JVal where
  | str (s : String)
  | null
  | arr (l : List JVal)
deriving Repr

/-- Descriptive metadata of a paper as returned by the first remote
service (the `arxiv` library result object); dates are abstracted to
their ISO strings. -/
structure PaperMeta where
  title : String
  authors : List String
  published : Option String
  updated : Option String
  journal_ref : Option String
deriving DecidableEq, Repr

/-- Embedding of `metadata._to_iso` composed with JSON encoding: a
present date becomes its ISO string, an absent one `None`/null. -/
def toIsoJ : Option String → JVal
  | some s => .str s
  | none => .null

/-- Python `x or default` on an optional string: `None` and the empty
string are falsy and yield the default. -/
def pyOrStr (s : Option String) (d : String) : String :=
  match s with
  | none => d
  | some s => if s = "" then d else s

/-- Embedding of `metadata.write_metadata_json` (`metadata.py` lines
29–82) as the key/value list of the JSON document it writes.  The oracle
`fetch` is `some paper` when the whole `try` body up to building `data`
succeeds, and `none` when anything in it raises (identifier conversion,
remote call, `StopIteration`, …); the `except` branch then writes the
minimal placeholder document with the same six keys and the same
`versions` value. -/
def writeMetadataJson (fetch : Option PaperMeta) (versions : List String) :
    List (String × JVal) :=
  match fetch with
  | some paper =>
    [("title", .str paper.title),
     ("authors", .arr (paper.authors.map JVal.str)),
     ("submission_date", toIsoJ paper.published),
     ("revised_dates",
       if paper.updated.isSome ∧ paper.updated ≠ paper.published
         then .arr [toIsoJ paper.updated] else .arr []),
     ("venue", .str (pyOrStr paper.journal_ref "arXiv preprint")),
     ("versions", .arr (versions.map JVal.str))]
  | none =>
    [("title", .str "Unknown"),
     ("authors", .arr []),
     ("submission_date", JVal.null),
     ("revised_dates", .arr []),
     ("venue", .str "arXiv preprint"),
     ("versions", .arr (versions.map JVal.str))]

/-- Outcome of the extraction attempt for one archive in
`cleaner._extract_all_tars`: gzipped-tar success, plain-tar success after
a `tarfile.ReadError`, not a tar at all (both opens failed, skipped), or
any other exception (caught and logged as a warning). -/
inductive ExtractOutcome where
  | okGz
  | okPlain
  | notATar
  | raised
deriving DecidableEq, Repr

/-- Per-archive events of `_extract_all_tars`: the extraction attempt
with its outcome, then the `os.remove` of the archive. -/
inductive CleanEvent where
  | extractAttempt (tgz : String) (outcome : ExtractOutcome)
  | remove (tgz : String)
deriving DecidableEq, Repr

/-- The seven characters of the suffix `.tar.gz`. -/
def sfxTarGz : List Char := ['.', 't', 'a', 'r', '.', 'g', 'z']

/-- Whether a file name matches the glob `*.tar.gz` in
`_extract_all_tars` — a suffix check on the name. -/
def hasTarGzSuffix (f : String) : Bool :=
  decide (f.data.drop (f.data.length - 7) = sfxTarGz)

/-- Top-level file list of `tex/` after `cleaner._extract_all_tars`
(`cleaner.py` lines 24–64): the glob selects the `*.tar.gz` names; for
each, extraction into the `version_name/` subdirectory is attempted (all
failures caught) and then — "Always remove the tar.gz file to save disk
space" — the archive itself is removed.  Extraction writes only into
subdirectories, so the top-level list changes only by the removals. -/
def extractAllTars (files : List String) : List String :=
  (files.filter (fun f => hasTarGzSuffix f)).foldl
    (fun st tgz => st.erase tgz) files

/-- Event trace of `_extract_all_tars` under extraction oracle `extract`:
per archive, in glob order, one extraction attempt followed by the
unconditional removal. -/
def extractAllTarsEvents (extract : String → ExtractOutcome)
    (files : List String) : List CleanEvent :=
  (files.filter (fun f => hasTarGzSuffix f)).flatMap
    (fun tgz => [.extractAttempt tgz (extract tgz), .remove tgz])

/-- Per-identifier outcome of the crawl loop body in `main.run`
(`main.py` lines 48–79): `ok` carries the collaborator results recorded
on success, `noVersions` is an empty VersionSet, `raised msg` is an
exception caught by the inner `except Exception` handler (with message
`str(e)`), and `fatal msg` is an error the inner handler does not catch —
a non-`Exception` `BaseException` or a failure raised outside the inner
`try` — which escapes the loop. -/
inductive ProcOutcome where
  | ok (sizeBefore sizeAfter refCount : Nat) (refSuccess : Bool)
  | noVersions
  | raised (msg : String)
  | fatal (msg : String)
deriving DecidableEq, Repr

/-- Whether a per-identifier outcome escapes the inner handler. -/
def isFatal : ProcOutcome → Bool
  | .fatal _ => true
  | _ => false

/-- State accumulated by `main.run` over the loop: the appended lines of
`failed_ids.txt` (identifier and reason, via `log_failed_id`), the
success counter (`stats.add_success` / `success_count`) and the failure
counter (`stats.add_failure` / `fail_count`). -/
structure RunState where
  failedLog : List (String × String)
  successes : Nat
  failures : Nat
deriving DecidableEq, Repr

/-- Lifecycle events of `main.run`: monitor start, one per-identifier
iteration, monitor stop, statistics write. -/
inductive RunEvent where
  | samplerStart
  | processed (id : String)
  | samplerStop
  | statsWrite
deriving DecidableEq, Repr

/-- The `for base_id in id_range(...)` loop of `main.run` under the inner
`try/except Exception` (`main.py` lines 46–79): a success bumps the
success counters; an empty version set or a caught exception appends one
line to the failed-ids log, bumps the failure counters, and continues
with the next identifier; a fatal error ends the loop at once, leaving
the remaining identifiers unprocessed.  Returns the final state, the
per-identifier events, and the escaping error if any. -/
def crawlLoop (proc : String → ProcOutcome) :
    List String → RunState → RunState × List RunEvent × Option String
  | [], st => (st, [], none)
  | id :: rest, st =>
    match proc id with
    | .ok _ _ _ _ =>
      let r := crawlLoop proc rest { st with successes := st.successes + 1 }
      (r.1, RunEvent.processed id :: r.2.1, r.2.2)
    | .noVersions =>
      let st2 := { st with failedLog := st.failedLog ++ [(id, "No versions found")], failures := st.failures + 1 }
      let r := crawlLoop proc rest st2
      (r.1, RunEvent.processed id :: r.2.1, r.2.2)
    | .raised msg =>
      let st2 := { st with failedLog := st.failedLog ++ [(id, msg)], failures := st.failures + 1 }
      let r := crawlLoop proc rest st2
      (r.1, RunEvent.processed id :: r.2.1, r.2.2)
    | .fatal msg => (st, [RunEvent.processed id], some msg)

/-- Embedding of `main.run` (`main.py` lines 45–102): start the monitor,
run the loop inside `try`, and in `finally` — whether the loop finished
or a fatal error escaped — stop the monitor and write the statistics
file; Python re-raises the escaped error after the `finally` block,
returned here as the last component. -/
def run (proc : String → ProcOutcome) (ids : List String) :
    RunState × List RunEvent × Option String :=
  let r := crawlLoop proc ids { failedLog := [], successes := 0, failures := 0 }
  (r.1,
   RunEvent.samplerStart :: r.2.1 ++ [RunEvent.samplerStop, RunEvent.statsWrite],
   r.2.2)

/-- The failed-ids line written for one identifier, if any: a caught
exception contributes its message, an empty version set contributes
"No versions found". -/
def failedLine (proc : String → ProcOutcome) (id : String) :
    Option (String × String) :=
  match proc id with
  | .raised m => some (id, m)
  | .noVersions => some (id, "No versions found")
  | _ => none

/-- Whether a per-identifier outcome is a success. -/
def isOk : ProcOutcome → Bool
  | .ok _ _ _ _ => true
  | _ => false

/-- Concrete per-identifier oracle: "a" succeeds, "b" raises a caught
exception, anything else has no versions. -/
def procW : String → ProcOutcome :=
  fun id =>
    if id = "a" then .ok 10 4 2 true
    else if id = "b" then .raised "boom"
    else .noVersions

/-- State of the reference fetcher's rate gate — `refs._api_call_times`,
a `deque(maxlen=1)` holding the time of the last grant — together with
the wall clock. -/
structure GateState where
  now : Nat
  last : Option Nat
deriving DecidableEq, Repr

/-- Embedding of `refs._wait_for_rate_limit` (`refs.py` lines 11–27): if
less than 1 second has passed since the last recorded call, sleep the
difference so that exactly 1 second has passed since it, then record the
current time as the new grant.  Returns the new state and the grant
time. -/
def waitForRateLimit (st : GateState) : GateState × Nat :=
  match st.last with
  | some t0 =>
    if st.now < t0 + 1 then
      ({ now := t0 + 1, last := some (t0 + 1) }, t0 + 1)
    else
      ({ now := st.now, last := some st.now }, st.now)
  | none => ({ now := st.now, last := some st.now }, st.now)

/-- Observable events of the reference fetch: a rate-gate grant at time
`t`, a `requests.get` issued at time `t` returning `statusCode`, and a
`time.sleep(d)`. -/
inductive RefEvent where
  | grant (t : Nat)
  | request (t : Nat) (statusCode : Nat)
  | sleepFor (d : Nat)
deriving DecidableEq, Repr

/-- Embedding of the 429 retry loop of `refs.fetch_and_write_references`
(`refs.py` lines 104–113): while the last response was 429 and fewer
than `max_retries = 10` retries have happened, sleep 5 s, re-acquire the
gate, and re-issue the request.  `status i` and `dur i` are the status
code and wall-clock duration of the `i`-th request (0-based); the last
argument is the remaining retry budget. -/
def refsRetryLoop (status dur : Nat → Nat) :
    Nat → Nat → GateState → Nat → List RefEvent × Nat
  | _, curStatus, _, 0 => ([], curStatus)
  | i, curStatus, st, b + 1 =>
    if curStatus = 429 then
      let st1 : GateState := { st with now := st.now + 5 }
      let w := waitForRateLimit st1
      let s := status i
      let st2 : GateState := { w.1 with now := w.1.now + dur i }
      let rest := refsRetryLoop status dur (i + 1) s st2 b
      (RefEvent.sleepFor 5 :: RefEvent.grant w.2 :: RefEvent.request w.2 s ::
        rest.1, rest.2)
    else ([], curStatus)

/-- The remote-call portion of `fetch_and_write_references` (`refs.py`
lines 96–113) from the module's initial gate state (empty deque) at
clock `t0`: one gate acquisition, the first request, then the retry loop
with budget 10. -/
def refsFetch (status dur : Nat → Nat) (t0 : Nat) : List RefEvent × Nat :=
  let w := waitForRateLimit { now := t0, last := none }
  let s0 := status 0
  let st1 : GateState := { w.1 with now := w.1.now + dur 0 }
  let rest := refsRetryLoop status dur 1 s0 st1 10
  (RefEvent.grant w.2 :: RefEvent.request w.2 s0 :: rest.1, rest.2)

/-- Whether every `request` event of a trace is immediately preceded by a
`grant` at the same instant. -/
def requestsGuarded : List RefEvent → Bool
  | [] => true
  | .grant t :: .request t2 _ :: rest => t == t2 && requestsGuarded rest
  | .request _ _ :: _ => false
  | _ :: rest => requestsGuarded rest

/-- Grant instants of a trace, in order. -/
def grantTimes (evs : List RefEvent) : List Nat :=
  evs.filterMap (fun e => match e with | .grant t => some t | _ => none)

/-- Whether every element of the list is at least one more than `g`, and
so on down the chain. -/
def gapsFrom (g : Nat) : List Nat → Bool
  | [] => true
  | a :: rest => (decide (g + 1 ≤ a)) && gapsFrom a rest

/-- Whether consecutive elements of the list always grow by at least 1. -/
def minSpaced : List Nat → Bool
  | [] => true
  | a :: rest => gapsFrom a rest

/-- Wake-up time of `threading.Event.wait(timeout)` called at `now` on an
event that is set at `stopT` (the one-shot stop signal of
`BenchmarkMonitor`): return immediately if the event is already set,
otherwise wake at the earlier of `now + timeout` and the moment the
event is set. -/
def eventWaitEnd (stopT now timeout : Nat) : Nat :=
  if stopT ≤ now then now else min (now + timeout) stopT

/-- Embedding of `BenchmarkMonitor._monitor_loop` (`benchmark.py` lines
113–143) on a discrete clock: while the stop event (set at time `stopT`)
is not set, run one iteration body — the memory/disk measurements and
the CSV append, lasting `body i` seconds at iteration `i` — and then
`self._stop_monitoring.wait(self.log_interval)`.  Returns the time the
loop exits its `while` check, or `none` when the iteration budget `fuel`
is too small to reach the exit. -/
def monitorLoop (stopT interval : Nat) (body : Nat → Nat) :
    Nat → Nat → Nat → Option Nat
  | _, _, 0 => none
  | i, now, fuel + 1 =>
    if stopT ≤ now then some now
    else
      monitorLoop stopT interval body (i + 1)
        (eventWaitEnd stopT (now + body i) interval) fuel

/-- Return time of `BenchmarkMonitor.stop` (`benchmark.py` lines 73–81)
called at `stopT`: it sets the event and joins the monitor thread with
`timeout=5`, so it returns at the earlier of the loop's exit time and
`stopT + 5` — and at `stopT + 5` at the latest even if the loop never
exits. -/
def stopReturn (stopT : Nat) (exitTime : Option Nat) : Nat :=
  match exitTime with
  | some e => min e (stopT + 5)
  | none => stopT + 5

/-- Unfolding rule of `requestCount` at a `request` event. -/
theorem requestCount_cons_request (v a : Nat) (l : List DlEvent) :
    requestCount (DlEvent.request v a :: l) = requestCount l + 1 := by
  simp [requestCount, List.countP_cons]

/-- Unfolding rule of `requestCount` at a `backoff` event. -/
theorem requestCount_cons_backoff (d : Nat) (l : List DlEvent) :
    requestCount (DlEvent.backoff d :: l) = requestCount l := by
  simp [requestCount, List.countP_cons]

/-- Unfolding rule of `reqVersions` at a `request` event. -/
theorem reqVersions_cons_request (v a : Nat) (l : List DlEvent) :
    reqVersions (DlEvent.request v a :: l) = v :: reqVersions l := rfl

/-- Unfolding rule of `reqVersions` at a `backoff` event. -/
theorem reqVersions_cons_backoff (d : Nat) (l : List DlEvent) :
    reqVersions (DlEvent.backoff d :: l) = reqVersions l := rfl

/-- The inner attempt loop never falls off the end of its `for`: the last
attempt's 429 and timeout branches both `return`, so every run from at
least one remaining attempt ends in `success` or `stop`. -/
theorem attemptLoop_ne_exhausted (resp : Nat → Nat → HttpOutcome) (rl v : Nat) :
    ∀ r a, (attemptLoop resp rl v a (r + 1)).2 ≠ AttemptResult.exhausted := by
  intro r
  induction r with
  | zero =>
    intro a
    unfold attemptLoop
    split <;> simp_all
  | succ n ih =>
    intro a
    unfold attemptLoop
    split <;> simp
    all_goals exact ih (a + 1)

/-- Shape invariant of the outer version loop: the versions collected from
`v` with `fuel` budget form a contiguous block `v, v+1, …, v+k-1` whose
every member had a successful attempt run, and — unless the budget ran
out — the next version's attempt run was not successful. -/
theorem versionLoop_range' (resp : Nat → Nat → HttpOutcome) (rl : Nat) :
    ∀ fuel v, ∃ k, k ≤ fuel ∧
      (versionLoop resp rl v fuel).1 = List.range' v k ∧
      (∀ i < k, (attemptLoop resp rl (v + i) 0 3).2 = AttemptResult.success) ∧
      (k < fuel → (attemptLoop resp rl (v + k) 0 3).2 ≠ AttemptResult.success) := by
  intro fuel
  induction fuel with
  | zero =>
    intro v
    exact ⟨0, le_rfl, by simp [versionLoop], by simp, by simp⟩
  | succ n ih =>
    intro v
    rcases h : (attemptLoop resp rl v 0 3).2 with _ | _ | _
    · obtain ⟨k, hk, hlist, hsucc, hmax⟩ := ih (v + 1)
      refine ⟨k + 1, by omega, ?_, ?_, ?_⟩
      · simp [versionLoop, h, hlist, List.range'_succ]
      · intro i hi
        match i with
        | 0 => simpa using h
        | j + 1 =>
          have : v + (j + 1) = v + 1 + j := by omega
          rw [this]
          exact hsucc j (by omega)
      · intro hlt
        have : v + (k + 1) = v + 1 + k := by omega
        rw [this]
        exact hmax (by omega)
    · refine ⟨0, by omega, ?_, by simp, ?_⟩
      · simp [versionLoop, h]
      · intro _
        simpa using h ▸ (by simp : AttemptResult.stop ≠ AttemptResult.success)
    · exact absurd h (attemptLoop_ne_exhausted resp rl v 2 0)

/-- Same shape invariant for the discovery loop, provided no probe raises
a generic (non-absence) error. -/
theorem checkLoop_range' (probe : Nat → ProbeOutcome)
    (hprobe : ∀ v, probe v ≠ ProbeOutcome.error) :
    ∀ fuel v, ∃ k, k ≤ fuel ∧ checkLoop probe v fuel = List.range' v k := by
  intro fuel
  induction fuel with
  | zero => intro v; exact ⟨0, le_rfl, by simp [checkLoop]⟩
  | succ n ih =>
    intro v
    rcases h : probe v with _ | _ | _
    · obtain ⟨k, hk, hlist⟩ := ih (v + 1)
      exact ⟨k + 1, by omega, by simp [checkLoop, h, hlist, List.range'_succ]⟩
    · exact ⟨0, by omega, by simp [checkLoop, h]⟩
    · exact absurd h (hprobe v)

/-- The attempt loop issues at most as many requests as it has remaining
iterations. -/
theorem requestCount_attemptLoop (resp : Nat → Nat → HttpOutcome) (rl v : Nat) :
    ∀ r a, requestCount (attemptLoop resp rl v a r).1 ≤ r := by
  intro r
  induction r with
  | zero => intro a; simp [attemptLoop, requestCount]
  | succ n ih =>
    intro a
    rw [attemptLoop.eq_2]
    split
    · simp [requestCount, List.countP_cons]
    · simp [requestCount, List.countP_cons]
    · split
      · simp [requestCount, List.countP_cons]
      · have := ih (a + 1)
        simp only [requestCount_cons_request, requestCount_cons_backoff]
        omega
    · simp [requestCount, List.countP_cons]
    · split
      · simp [requestCount, List.countP_cons]
      · have := ih (a + 1)
        simp only [requestCount_cons_request, requestCount_cons_backoff]
        omega
    · simp [requestCount, List.countP_cons]

/-- Every request the attempt loop for version `v` issues is for `v`. -/
theorem reqVersions_attemptLoop (resp : Nat → Nat → HttpOutcome) (rl v : Nat) :
    ∀ r a, ∀ x ∈ reqVersions (attemptLoop resp rl v a r).1, x = v := by
  intro r
  induction r with
  | zero => intro a; simp [attemptLoop, reqVersions]
  | succ n ih =>
    intro a
    rw [attemptLoop.eq_2]
    split
    · simp [reqVersions]
    · simp [reqVersions]
    · split
      · simp [reqVersions]
      · intro x hx
        simp only [reqVersions_cons_request, reqVersions_cons_backoff,
          List.mem_cons] at hx
        rcases hx with h | h
        · exact h
        · exact ih (a + 1) x h
    · simp [reqVersions]
    · split
      · simp [reqVersions]
      · intro x hx
        simp only [reqVersions_cons_request, reqVersions_cons_backoff,
          List.mem_cons] at hx
        rcases hx with h | h
        · exact h
        · exact ih (a + 1) x h
    · simp [reqVersions]

/-- Every request the version loop issues starting at version `v` with
budget `fuel` is for a version in `[v, v + fuel)`. -/
theorem reqVersions_versionLoop (resp : Nat → Nat → HttpOutcome) (rl : Nat) :
    ∀ fuel v, ∀ x ∈ reqVersions (versionLoop resp rl v fuel).2,
      v ≤ x ∧ x < v + fuel := by
  intro fuel
  induction fuel with
  | zero => intro v; simp [versionLoop, reqVersions]
  | succ n ih =>
    intro v x hx
    rcases h : (attemptLoop resp rl v 0 3).2 with _ | _ | _ <;>
      simp only [versionLoop, h, reqVersions, List.filterMap_append,
        List.mem_append] at hx
    · rcases hx with h1 | h1
      · have := reqVersions_attemptLoop resp rl v 3 0 x h1
        omega
      · have := ih (v + 1) x h1
        omega
    · have := reqVersions_attemptLoop resp rl v 3 0 x hx
      omega
    · rcases hx with h1 | h1
      · have := reqVersions_attemptLoop resp rl v 3 0 x h1
        omega
      · have := ih (v + 1) x h1
        omega

/-- A 429 with at least one more iteration of budget produces exactly the
request followed by a `5 * 2^a`-second backoff sleep, then the remaining
attempts. -/
theorem attemptLoop_429_backoff (resp : Nat → Nat → HttpOutcome) (rl v a r : Nat)
    (h : resp v a = HttpOutcome.status 429) :
    (attemptLoop resp rl v a (r + 2)).1 =
      DlEvent.request v a :: DlEvent.backoff (5 * 2 ^ a) ::
        (attemptLoop resp rl v (a + 1) (r + 1)).1 := by
  generalize hE : attemptLoop resp rl v (a + 1) (r + 1) = E
  rw [attemptLoop.eq_2]
  simp [h, hE]

/-- The discovery loop returns at most `fuel` versions. -/
theorem checkLoop_length (probe : Nat → ProbeOutcome) :
    ∀ fuel v, (checkLoop probe v fuel).length ≤ fuel := by
  intro fuel
  induction fuel with
  | zero => intro v; simp [checkLoop]
  | succ n ih =>
    intro v
    rcases h : probe v with _ | _ | _ <;> simp only [checkLoop, h]
    · simpa using ih (v + 1)
    · simp
    · exact (ih (v + 1)).trans (by omega)

/-- Every version the discovery loop returns lies in `[v, v + fuel)`. -/
theorem checkLoop_mem (probe : Nat → ProbeOutcome) :
    ∀ fuel v, ∀ x ∈ checkLoop probe v fuel, v ≤ x ∧ x < v + fuel := by
  intro fuel
  induction fuel with
  | zero => intro v; simp [checkLoop]
  | succ n ih =>
    intro v x hx
    rcases h : probe v with _ | _ | _ <;> simp only [checkLoop, h] at hx
    · rcases List.mem_cons.mp hx with h1 | h1
      · omega
      · have := ih (v + 1) x h1
        omega
    · simp at hx
    · have := ih (v + 1) x hx
      omega

/-- Every version the discovery loop probes lies in `[v, v + fuel)`. -/
theorem checkProbedLoop_mem (probe : Nat → ProbeOutcome) :
    ∀ fuel v, ∀ x ∈ checkProbedLoop probe v fuel, v ≤ x ∧ x < v + fuel := by
  intro fuel
  induction fuel with
  | zero => intro v; simp [checkProbedLoop]
  | succ n ih =>
    intro v x hx
    rcases h : probe v with _ | _ | _ <;> simp only [checkProbedLoop, h] at hx
    · rcases List.mem_cons.mp hx with h1 | h1
      · omega
      · have := ih (v + 1) x h1
        omega
    · simp at hx; omega
    · rcases List.mem_cons.mp hx with h1 | h1
      · omega
      · have := ih (v + 1) x h1
        omega

/-- Claim C1 (counterexample): version probing does not always return a
contiguous block.  `check_paper_exists` (`discovery.py` lines 48–61), on a
generic (non-`StopIteration`) probe error, logs a warning, sleeps 2 s and
continues with the next version without appending; so for a service that
finds v1, raises a transient error at v2, finds v3 and misses from v4 the
result is `[1, 3]` — version 3 is reported present while version 2 is not,
violating the claim's no-gap invariant. -/
theorem C1_counterexample :
    checkPaperExists gapProbe = [1, 3] ∧
      3 ∈ checkPaperExists gapProbe ∧ 2 ∉ checkPaperExists gapProbe := by
  decide

/-- Claim C1 (amended): version probing returns a gapless contiguous block
`v1..vk` — unconditionally on the download path, where every non-200
outcome ends probing and the block is moreover maximal (every collected
version had a successful attempt run and, below the guardrail, the next
version's run was not successful), and on the discovery path provided no
probe raises a generic non-absence error (on such an error
`check_paper_exists` skips the version and keeps probing, which can leave
a gap).  For a service that succeeds for v1–v3 and reports absence for
v4, both paths return exactly {v1, v2, v3}. -/
theorem C1_probe_contiguous :
    (∀ resp rl, ∃ k, k ≤ 10 ∧
        (downloadAllVersions resp rl).1 = List.range' 1 k ∧
        (∀ i < k, (attemptLoop resp rl (1 + i) 0 3).2 = AttemptResult.success) ∧
        (k < 10 → (attemptLoop resp rl (1 + k) 0 3).2 ≠ AttemptResult.success)) ∧
    (∀ probe, (∀ v, probe v ≠ ProbeOutcome.error) →
        ∃ k, k ≤ 10 ∧ checkPaperExists probe = List.range' 1 k) ∧
    (downloadAllVersions dlRespV3 3).1 = [1, 2, 3] ∧
    checkPaperExists probeV3 = [1, 2, 3] := by
  refine ⟨fun resp rl => versionLoop_range' resp rl 10 1,
    fun probe h => checkLoop_range' probe h 10 1, by decide, by decide⟩

/-- Claim C1 (witness): the amended theorem at the all-found discovery
oracle, whose probes never error. -/
theorem C1_probe_contiguous_witness :
    ∃ k, k ≤ 10 ∧
      checkPaperExists (fun _ => ProbeOutcome.found) = List.range' 1 k :=
  C1_probe_contiguous.2.1 (fun _ => ProbeOutcome.found)
    (fun _ h => ProbeOutcome.noConfusion h)

/-- Claim C2: on the download path, a fetch rate-limited (HTTP 429) at
0-based attempt `a` — 1-based attempt `n = a + 1` — with budget left
sleeps exactly `5 * 2^a = 5s × 2^(n−1)` before the next attempt; at most
3 requests are ever issued for one version; and in the concrete scenario
429 on attempts 1–2 and 200 on attempt 3, the fetch succeeds with total
backoff sleep `5 + 10` seconds over exactly 3 attempts. -/
theorem C2_backoff_policy :
    (∀ resp rl v a r, resp v a = HttpOutcome.status 429 →
        (attemptLoop resp rl v a (r + 2)).1 =
          DlEvent.request v a :: DlEvent.backoff (5 * 2 ^ a) ::
            (attemptLoop resp rl v (a + 1) (r + 1)).1) ∧
    (∀ resp rl v, requestCount (attemptLoop resp rl v 0 3).1 ≤ 3) ∧
    ((attemptLoop resp429 3 1 0 3).2 = AttemptResult.success ∧
      backoffTotal (attemptLoop resp429 3 1 0 3).1 = 5 + 10 ∧
      requestCount (attemptLoop resp429 3 1 0 3).1 = 3) := by
  refine ⟨fun resp rl v a r h => attemptLoop_429_backoff resp rl v a r h,
    fun resp rl v => requestCount_attemptLoop resp rl v 3 0,
    by decide, by decide, by decide⟩

/-- Claim C2 (witness): the backoff equation at the concrete 429 oracle,
first attempt, discharging the 429 hypothesis. -/
theorem C2_backoff_policy_witness :
    (attemptLoop resp429 3 1 0 (1 + 2)).1 =
      DlEvent.request 1 0 :: DlEvent.backoff (5 * 2 ^ 0) ::
        (attemptLoop resp429 3 1 (0 + 1) (1 + 1)).1 :=
  C2_backoff_policy.1 resp429 3 1 0 1 (by decide)

/-- Claim C8: probing never goes beyond version 10 on either path.  The
downloader returns at most 10 versions, all between 1 and 10, and every
request it issues is for a version between 1 and 10; `check_paper_exists`
likewise returns at most 10 versions and probes only versions 1–10.  Both
loops are total functions that, at the guardrail, return whatever was
found. -/
theorem C8_version_guardrail :
    (∀ resp rl,
        (downloadAllVersions resp rl).1.length ≤ 10 ∧
        (∀ v ∈ (downloadAllVersions resp rl).1, 1 ≤ v ∧ v ≤ 10) ∧
        (∀ v ∈ reqVersions (downloadAllVersions resp rl).2, 1 ≤ v ∧ v ≤ 10)) ∧
    (∀ probe,
        (checkPaperExists probe).length ≤ 10 ∧
        (∀ v ∈ checkPaperExists probe, 1 ≤ v ∧ v ≤ 10) ∧
        (∀ v ∈ checkProbed probe, 1 ≤ v ∧ v ≤ 10)) := by
  constructor
  · intro resp rl
    unfold downloadAllVersions
    obtain ⟨k, hk, hlist, -, -⟩ := versionLoop_range' resp rl 10 1
    refine ⟨?_, ?_, ?_⟩
    · rw [hlist, List.length_range']
      exact hk
    · intro v hv
      rw [hlist] at hv
      obtain ⟨i, hi, rfl⟩ := List.mem_range'.mp hv
      omega
    · intro v hv
      have := reqVersions_versionLoop resp rl 10 1 v hv
      omega
  · intro probe
    refine ⟨checkLoop_length probe 10 1, ?_, ?_⟩
    · intro v hv
      have := checkLoop_mem probe 10 1 v hv
      omega
    · intro v hv
      have := checkProbedLoop_mem probe 10 1 v hv
      omega

/-- Claim C8 (witness): the bounds at the concrete v1–v3 oracles and
concrete member versions. -/
theorem C8_version_guardrail_witness :
    ((downloadAllVersions dlRespV3 3).1.length ≤ 10 ∧ (1 ≤ 3 ∧ 3 ≤ 10)) ∧
      ((checkPaperExists probeV3).length ≤ 10 ∧ (1 ≤ 4 ∧ 4 ≤ 10)) :=
  ⟨⟨(C8_version_guardrail.1 dlRespV3 3).1,
    (C8_version_guardrail.1 dlRespV3 3).2.1 3 (by decide)⟩,
   ⟨(C8_version_guardrail.2 probeV3).1,
    (C8_version_guardrail.2 probeV3).2.2 4 (by decide)⟩⟩

/-- Characterization of the crawl loop when no per-identifier outcome is
fatal: the failed-ids lines are exactly the `failedLine`s of the
identifiers in order, the failure counter grows by their number, the
success counter by the number of `ok` outcomes, every identifier is
processed, and nothing escapes. -/
theorem crawlLoop_no_fatal (proc : String → ProcOutcome) :
    ∀ ids st, (∀ id ∈ ids, isFatal (proc id) = false) →
      (crawlLoop proc ids st).1.failedLog =
          st.failedLog ++ ids.filterMap (failedLine proc) ∧
      (crawlLoop proc ids st).1.failures =
          st.failures + (ids.filterMap (failedLine proc)).length ∧
      (crawlLoop proc ids st).1.successes =
          st.successes + (ids.filter (fun i => isOk (proc i))).length ∧
      (crawlLoop proc ids st).2.1 = ids.map RunEvent.processed ∧
      (crawlLoop proc ids st).2.2 = none := by
  intro ids
  induction ids with
  | nil => intro st h; simp [crawlLoop]
  | cons id rest ih =>
    intro st h
    have hid : isFatal (proc id) = false := h id (List.mem_cons_self id rest)
    have hrest : ∀ i ∈ rest, isFatal (proc i) = false :=
      fun i hi => h i (List.mem_cons_of_mem id hi)
    rcases hp : proc id with ⟨s1, s2, s3, s4⟩ | _ | m | m
    · obtain ⟨h1, h2, h3, h4, h5⟩ :=
        ih { st with successes := st.successes + 1 } hrest
      refine ⟨?_, ?_, ?_, ?_, ?_⟩ <;>
        (simp [crawlLoop, hp, failedLine, isOk, h1, h2, h3, h4, h5]; try omega)
    · obtain ⟨h1, h2, h3, h4, h5⟩ :=
        ih { st with failedLog := st.failedLog ++ [(id, "No versions found")], failures := st.failures + 1 } hrest
      refine ⟨?_, ?_, ?_, ?_, ?_⟩ <;>
        (simp [crawlLoop, hp, failedLine, isOk, h1, h2, h3, h4, h5]; try omega)
    · obtain ⟨h1, h2, h3, h4, h5⟩ :=
        ih { st with failedLog := st.failedLog ++ [(id, m)], failures := st.failures + 1 } hrest
      refine ⟨?_, ?_, ?_, ?_, ?_⟩ <;>
        (simp [crawlLoop, hp, failedLine, isOk, h1, h2, h3, h4, h5]; try omega)
    · rw [hp] at hid
      simp [isFatal] at hid

/-- Claim C3: when every per-identifier outcome is one that the inner
`except Exception` handler can see (success, empty version set, or a
caught exception — non-`Exception` signals are process termination, out
of the loop's scope), every caught exception appends exactly one
failed-ids line carrying its message, is counted as one recorded
failure, and the loop continues: all identifiers are processed, the
success and failure counters partition the outcomes, and no error
escapes the run. -/
theorem C3_error_containment (proc : String → ProcOutcome)
    (ids : List String) (h : ∀ id ∈ ids, isFatal (proc id) = false) :
    (run proc ids).1.failedLog = ids.filterMap (failedLine proc) ∧
    (run proc ids).1.failures = (ids.filterMap (failedLine proc)).length ∧
    (run proc ids).1.successes =
      (ids.filter (fun i => isOk (proc i))).length ∧
    (run proc ids).2.1 = RunEvent.samplerStart ::
      ids.map RunEvent.processed ++
        [RunEvent.samplerStop, RunEvent.statsWrite] ∧
    (run proc ids).2.2 = none := by
  obtain ⟨h1, h2, h3, h4, h5⟩ :=
    crawlLoop_no_fatal proc ids { failedLog := [], successes := 0, failures := 0 } h
  exact ⟨by simpa [run] using h1, by simpa [run] using h2,
    by simpa [run] using h3, by simp [run, h4], by simpa [run] using h5⟩

/-- Claim C3 (witness): the loop over ["a", "b", "c"] where "b" raises a
caught exception: one line per failure, both failures counted, one
success, all three processed, nothing escapes. -/
theorem C3_error_containment_witness :
    (run procW ["a", "b", "c"]).1.failedLog =
      ["a", "b", "c"].filterMap (failedLine procW) ∧
    (run procW ["a", "b", "c"]).1.failures =
      (["a", "b", "c"].filterMap (failedLine procW)).length ∧
    (run procW ["a", "b", "c"]).1.successes =
      (["a", "b", "c"].filter (fun i => isOk (procW i))).length ∧
    (run procW ["a", "b", "c"]).2.1 = RunEvent.samplerStart ::
      ["a", "b", "c"].map RunEvent.processed ++
        [RunEvent.samplerStop, RunEvent.statsWrite] ∧
    (run procW ["a", "b", "c"]).2.2 = none :=
  C3_error_containment procW ["a", "b", "c"] (by decide)

/-- Every event the crawl loop itself emits is a `processed` event — the
sampler-stop and statistics-write come only from the `finally` block. -/
theorem crawlLoop_events_processed (proc : String → ProcOutcome) :
    ∀ ids st, ∀ e ∈ (crawlLoop proc ids st).2.1,
      ∃ i, e = RunEvent.processed i := by
  intro ids
  induction ids with
  | nil => intro st e he; simp [crawlLoop] at he
  | cons id rest ih =>
    intro st e he
    rcases hp : proc id with ⟨s1, s2, s3, s4⟩ | _ | m | m <;>
      simp only [crawlLoop, hp] at he
    · rcases List.mem_cons.mp he with rfl | hmem
      · exact ⟨id, rfl⟩
      · exact ih _ e hmem
    · rcases List.mem_cons.mp he with rfl | hmem
      · exact ⟨id, rfl⟩
      · exact ih _ e hmem
    · rcases List.mem_cons.mp he with rfl | hmem
      · exact ⟨id, rfl⟩
      · exact ih _ e hmem
    · rcases List.mem_cons.mp he with rfl | hmem
      · exact ⟨id, rfl⟩
      · simp at hmem

/-- Claim C4: for every run — whether the loop completes or a fatal error
escapes it — the run's event trace contains exactly one sampler stop and
exactly one statistics write, both after all per-identifier events, as
dictated by the `try/finally` structure of `main.run`. -/
theorem C4_guaranteed_cleanup (proc : String → ProcOutcome)
    (ids : List String) :
    (run proc ids).2.1.count RunEvent.samplerStop = 1 ∧
    (run proc ids).2.1.count RunEvent.statsWrite = 1 ∧
    (run proc ids).2.1 = RunEvent.samplerStart ::
      (crawlLoop proc ids { failedLog := [], successes := 0, failures := 0 }).2.1 ++
        [RunEvent.samplerStop, RunEvent.statsWrite] := by
  have hev := crawlLoop_events_processed proc ids
    { failedLog := [], successes := 0, failures := 0 }
  have hstop : RunEvent.samplerStop ∉
      (crawlLoop proc ids { failedLog := [], successes := 0, failures := 0 }).2.1 := by
    intro hc
    obtain ⟨i, hi⟩ := hev _ hc
    cases hi
  have hwrite : RunEvent.statsWrite ∉
      (crawlLoop proc ids { failedLog := [], successes := 0, failures := 0 }).2.1 := by
    intro hc
    obtain ⟨i, hi⟩ := hev _ hc
    cases hi
  refine ⟨?_, ?_, by simp [run]⟩
  · simp [run, List.count_cons, List.count_append,
      List.count_eq_zero.mpr hstop]
  · simp [run, List.count_cons, List.count_append,
      List.count_eq_zero.mpr hwrite]

/-- Claim C4 (witness): cleanup also happens exactly once when a fatal
error escapes the loop at the first identifier. -/
theorem C4_guaranteed_cleanup_witness :
    (run (fun _ => ProcOutcome.fatal "kill") ["a", "b"]).2.1.count
        RunEvent.samplerStop = 1 ∧
      (run (fun _ => ProcOutcome.fatal "kill") ["a", "b"]).2.1.count
        RunEvent.statsWrite = 1 :=
  ⟨(C4_guaranteed_cleanup (fun _ => ProcOutcome.fatal "kill") ["a", "b"]).1,
   (C4_guaranteed_cleanup (fun _ => ProcOutcome.fatal "kill") ["a", "b"]).2.1⟩

/-- The attempt loop never emits a gate acquisition. -/
theorem acquire_not_mem_attemptLoop (resp : Nat → Nat → HttpOutcome)
    (rl v : Nat) :
    ∀ r a, DlEvent.acquire ∉ (attemptLoop resp rl v a r).1 := by
  intro r
  induction r with
  | zero => intro a; simp [attemptLoop]
  | succ n ih =>
    intro a
    rw [attemptLoop.eq_2]
    split
    · simp
    · simp
    · split
      · simp
      · simp [ih (a + 1)]
    · simp
    · split
      · simp
      · simp [ih (a + 1)]
    · simp

/-- The whole version loop never emits a gate acquisition. -/
theorem acquire_not_mem_versionLoop (resp : Nat → Nat → HttpOutcome)
    (rl : Nat) :
    ∀ fuel v, DlEvent.acquire ∉ (versionLoop resp rl v fuel).2 := by
  intro fuel
  induction fuel with
  | zero => intro v; simp [versionLoop]
  | succ n ih =>
    intro v
    rcases h : (attemptLoop resp rl v 0 3).2 with _ | _ | _ <;>
      simp only [versionLoop, h]
    · intro hc
      rcases List.mem_append.mp hc with hc | hc
      · exact acquire_not_mem_attemptLoop resp rl v 3 0 hc
      · exact ih (v + 1) hc
    · exact acquire_not_mem_attemptLoop resp rl v 3 0
    · intro hc
      rcases List.mem_append.mp hc with hc | hc
      · exact acquire_not_mem_attemptLoop resp rl v 3 0 hc
      · exact ih (v + 1) hc

/-- Unfolding rule of `requestsGuarded` at a grant/request pair. -/
theorem requestsGuarded_grant_request (t t2 s : Nat) (l : List RefEvent) :
    requestsGuarded (RefEvent.grant t :: RefEvent.request t2 s :: l) =
      ((t == t2) && requestsGuarded l) := rfl

/-- Unfolding rule of `requestsGuarded` at a sleep. -/
theorem requestsGuarded_sleep (d : Nat) (l : List RefEvent) :
    requestsGuarded (RefEvent.sleepFor d :: l) = requestsGuarded l := rfl

/-- Unfolding rule of `grantTimes` at a sleep. -/
theorem grantTimes_sleep (d : Nat) (l : List RefEvent) :
    grantTimes (RefEvent.sleepFor d :: l) = grantTimes l := rfl

/-- Unfolding rule of `grantTimes` at a grant. -/
theorem grantTimes_grant (t : Nat) (l : List RefEvent) :
    grantTimes (RefEvent.grant t :: l) = t :: grantTimes l := rfl

/-- Unfolding rule of `grantTimes` at a request. -/
theorem grantTimes_request (t s : Nat) (l : List RefEvent) :
    grantTimes (RefEvent.request t s :: l) = grantTimes l := rfl

/-- In the reference fetcher's retry loop, every request is immediately
preceded by its own gate grant. -/
theorem requestsGuarded_refsRetryLoop (status dur : Nat → Nat) :
    ∀ b i cs st,
      requestsGuarded (refsRetryLoop status dur i cs st b).1 = true := by
  intro b
  induction b with
  | zero => intro i cs st; rfl
  | succ n ih =>
    intro i cs st
    by_cases hc : cs = 429
    · simp only [refsRetryLoop, hc, if_pos]
      rw [requestsGuarded_sleep, requestsGuarded_grant_request]
      simp [ih]
    · simp only [refsRetryLoop, if_neg hc]
      rfl

/-- In the reference fetcher's retry loop started with a gate whose last
grant was at `g`, consecutive grant times grow by at least 1 second. -/
theorem gapsFrom_refsRetryLoop (status dur : Nat → Nat) :
    ∀ b i cs st g, st.last = some g →
      gapsFrom g (grantTimes (refsRetryLoop status dur i cs st b).1) = true := by
  intro b
  induction b with
  | zero => intro i cs st g hg; rfl
  | succ n ih =>
    intro i cs st g hg
    by_cases hc : cs = 429
    · simp only [refsRetryLoop, hc, if_pos]
      simp only [waitForRateLimit, hg]
      split
      · rw [grantTimes_sleep, grantTimes_grant, grantTimes_request]
        have hrec := ih (i + 1) (status i)
          ⟨g + 1 + dur i, some (g + 1)⟩ (g + 1) rfl
        simp [gapsFrom, hrec]
      · rw [grantTimes_sleep, grantTimes_grant, grantTimes_request]
        have hrec := ih (i + 1) (status i)
          ⟨st.now + 5 + dur i, some (st.now + 5)⟩ (st.now + 5) rfl
        simp only [gapsFrom, hrec, Bool.and_true, decide_eq_true_eq]
        omega
    · simp only [refsRetryLoop, if_neg hc]
      rfl

/-- Claim C5 (counterexample): on the download path a fetch attempt is
issued with no rate-gate acquisition preceding it: for a service
answering 404 immediately, the whole trace of `download_all_versions` is
the single bare request — it contains a request and no acquisition at
all.  (The `utils.rate_limited` decorator exists but is applied nowhere;
the downloader paces itself only by sleeping after a success.) -/
theorem C5_counterexample :
    (downloadAllVersions (fun _ _ => HttpOutcome.status 404) 3).2 =
        [DlEvent.request 1 0] ∧
      DlEvent.request 1 0 ∈
        (downloadAllVersions (fun _ _ => HttpOutcome.status 404) 3).2 ∧
      DlEvent.acquire ∉
        (downloadAllVersions (fun _ _ => HttpOutcome.status 404) 3).2 := by
  refine ⟨by decide, by decide, by decide⟩

/-- Claim C5 (amended): on the reference-fetch path every remote call is
immediately preceded by one rate-gate acquisition
(`_wait_for_rate_limit`), and successive grants of that gate are at
least its 1-second minimum interval apart; the download path, by
contrast, issues its requests without any gate acquisition — its rate
limiting is a post-success sleep. -/
theorem C5_rate_gate :
    (∀ status dur t0,
        requestsGuarded (refsFetch status dur t0).1 = true ∧
        minSpaced (grantTimes (refsFetch status dur t0).1) = true) ∧
    (∀ resp rl, DlEvent.acquire ∉ (downloadAllVersions resp rl).2) := by
  constructor
  · intro status dur t0
    constructor
    · simp only [refsFetch, waitForRateLimit]
      rw [requestsGuarded_grant_request]
      simp [requestsGuarded_refsRetryLoop]
    · simp only [refsFetch, waitForRateLimit]
      rw [grantTimes_grant, grantTimes_request]
      simp only [minSpaced]
      exact gapsFrom_refsRetryLoop status dur 10 1 (status 0) _ t0 rfl
  · intro resp rl
    exact acquire_not_mem_versionLoop resp rl 10 1

/-- Claim C5 (witness): the amended theorem at a concrete oracle — a
constant-429 reference service starting at clock 7, and the 404 download
service. -/
theorem C5_rate_gate_witness :
    (requestsGuarded (refsFetch (fun _ => 429) (fun _ => 0) 7).1 = true ∧
      minSpaced (grantTimes (refsFetch (fun _ => 429) (fun _ => 0) 7).1) = true) ∧
    DlEvent.acquire ∉
      (downloadAllVersions (fun _ _ => HttpOutcome.status 404) 3).2 :=
  ⟨C5_rate_gate.1 (fun _ => 429) (fun _ => 0) 7,
   C5_rate_gate.2 (fun _ _ => HttpOutcome.status 404) 3⟩

/-- The monitor loop, started no later than the stop signal with
iteration bodies bounded by `B`, exits (when it exits) within `B` of the
signal — a latency independent of the log interval. -/
theorem monitorLoop_exit_le (stopT interval B : Nat) (body : Nat → Nat)
    (hB : ∀ j, body j ≤ B) :
    ∀ fuel i now, now ≤ stopT + B →
      ∀ e, monitorLoop stopT interval body i now fuel = some e →
        e ≤ stopT + B := by
  intro fuel
  induction fuel with
  | zero =>
    intro i now hinv e he
    simp [monitorLoop] at he
  | succ n ih =>
    intro i now hinv e he
    rw [monitorLoop.eq_2] at he
    by_cases hc : stopT ≤ now
    · rw [if_pos hc] at he
      cases he
      exact hinv
    · rw [if_neg hc] at he
      refine ih (i + 1) _ ?_ e he
      have hb := hB i
      simp only [eventWaitEnd]
      split <;> omega

/-- Claim C6: the sampler's inter-iteration wait is interruptible by the
stop signal — it returns immediately once the signal is set and never
waits past the signal — `stop()` returns within its 5-second join
timeout whatever the interval, and the loop itself exits within one
iteration body of the signal, a latency independent of the interval
length. -/
theorem C6_bounded_shutdown (stopT interval B fuel i now : Nat)
    (body : Nat → Nat) (hB : ∀ j, body j ≤ B) (hnow : now ≤ stopT) :
    (∀ t, stopT ≤ t → eventWaitEnd stopT t interval = t) ∧
    (∀ t, eventWaitEnd stopT t interval ≤ max t stopT) ∧
    (∀ e, monitorLoop stopT interval body i now fuel = some e →
        e ≤ stopT + B) ∧
    stopReturn stopT (monitorLoop stopT interval body i now fuel) ≤
      stopT + 5 := by
  refine ⟨?_, ?_, ?_, ?_⟩
  · intro t ht
    simp [eventWaitEnd, ht]
  · intro t
    simp only [eventWaitEnd]
    split <;> omega
  · exact monitorLoop_exit_le stopT interval B body hB fuel i now
      (by omega)
  · rcases monitorLoop stopT interval body i now fuel with _ | e <;>
      simp [stopReturn]

/-- Claim C6 (witness): a stop at time 7 with 2-second bodies and a
1000-second interval — the wait and shutdown bounds hold with latency
independent of the huge interval. -/
theorem C6_bounded_shutdown_witness :
    (∀ t, 7 ≤ t → eventWaitEnd 7 t 1000 = t) ∧
    (∀ t, eventWaitEnd 7 t 1000 ≤ max t 7) ∧
    (∀ e, monitorLoop 7 1000 (fun _ => 2) 0 0 5 = some e → e ≤ 7 + 2) ∧
    stopReturn 7 (monitorLoop 7 1000 (fun _ => 2) 0 0 5) ≤ 7 + 5 :=
  C6_bounded_shutdown 7 1000 2 5 0 0 (fun _ => 2)
    (fun _ => Nat.le_refl 2) (by decide)

/-- Claim C7 (counterexample): not every conversion function raises on a
wrong segment count: `refs._convert_id_format` returns the malformed
input unchanged (its comment says "Return as-is if format is
unexpected"), here on the one-segment input "202510". -/
theorem C7_counterexample :
    refsConvertIdFormat "202510" = "202510" ∧
      (splitDash "202510".data).length ≠ 2 := by
  exact ⟨rfl, by decide⟩

/-- Claim C7 (amended): an identifier whose `"-"`-split does not have
exactly two segments deterministically raises the FormatError
(`ValueError`) in the downloader and metadata conversion functions; the
reference-path conversion function instead returns the input unchanged. -/
theorem C7_format_error (s : String)
    (h : (splitDash s.data).length ≠ 2) :
    dlConvertIdFormat s = Except.error ⟨"Invalid base_id format: " ++ s⟩ ∧
    metaConvertIdFormat s = Except.error ⟨"Invalid base_id format: " ++ s⟩ ∧
    refsConvertIdFormat s = s := by
  rcases hs : splitDash s.data with _ | ⟨a, _ | ⟨b, _ | ⟨c, t⟩⟩⟩
  · exact ⟨by simp [dlConvertIdFormat, hs], by simp [metaConvertIdFormat, hs],
      by simp [refsConvertIdFormat, hs]⟩
  · exact ⟨by simp [dlConvertIdFormat, hs], by simp [metaConvertIdFormat, hs],
      by simp [refsConvertIdFormat, hs]⟩
  · exact absurd (by rw [hs]; rfl : (splitDash s.data).length = 2) h
  · exact ⟨by simp [dlConvertIdFormat, hs], by simp [metaConvertIdFormat, hs],
      by simp [refsConvertIdFormat, hs]⟩

/-- Claim C7 (witness): the amended theorem at the one-segment input. -/
theorem C7_format_error_witness :
    dlConvertIdFormat "202510" =
        Except.error ⟨"Invalid base_id format: " ++ "202510"⟩ ∧
      metaConvertIdFormat "202510" =
        Except.error ⟨"Invalid base_id format: " ++ "202510"⟩ ∧
      refsConvertIdFormat "202510" = "202510" :=
  C7_format_error "202510" (by decide)

/-- Claim C9: for every fetch outcome and version set the metadata
writer produces a document whose keys are exactly title, authors,
submission_date, revised_dates, venue, versions, in that order; and on
any failure it writes the minimal placeholder with the same shape and
the same `versions` value rather than omitting the file. -/
theorem C9_metadata_shape :
    (∀ fetch versions, (writeMetadataJson fetch versions).map Prod.fst =
        ["title", "authors", "submission_date", "revised_dates", "venue",
          "versions"]) ∧
    (∀ versions, writeMetadataJson none versions =
        [("title", JVal.str "Unknown"), ("authors", JVal.arr []),
         ("submission_date", JVal.null), ("revised_dates", JVal.arr []),
         ("venue", JVal.str "arXiv preprint"),
         ("versions", JVal.arr (versions.map JVal.str))]) := by
  constructor
  · intro fetch versions
    cases fetch <;> rfl
  · intro versions
    rfl

/-- Monotonicity of repeated erasure: an element absent from the initial
list stays absent. -/
theorem not_mem_foldl_erase_of_not_mem {x : String} :
    ∀ (tars l : List String), x ∉ l →
      x ∉ List.foldl List.erase l tars := by
  intro tars
  induction tars with
  | nil => intro l h; simpa using h
  | cons a t ih =>
    intro l h
    simp only [List.foldl_cons]
    exact ih (l.erase a) (fun hc => h (List.mem_of_mem_erase hc))

/-- Erasing, in turn, every element of `tars` from a duplicate-free list
removes every member of `tars`. -/
theorem not_mem_foldl_erase {x : String} :
    ∀ (tars l : List String), l.Nodup → x ∈ tars →
      x ∉ List.foldl List.erase l tars := by
  intro tars
  induction tars with
  | nil => simp
  | cons a t ih =>
    intro l hnd hx
    simp only [List.foldl_cons]
    rcases List.mem_cons.mp hx with rfl | hx
    · exact not_mem_foldl_erase_of_not_mem t (l.erase x)
        (fun hc => ((List.Nodup.mem_erase_iff hnd).mp hc).1 rfl)
    · exact ih (l.erase a) (hnd.erase a) hx

/-- Claim C10: every `.tar.gz` archive in the `tex/` directory gets an
extraction attempt and is then deleted regardless of the extraction's
outcome — in particular also when the file is not a valid tar archive or
extraction raised — so the downloaded payload is removed from the
directory's file list. -/
theorem C10_archive_always_removed (extract : String → ExtractOutcome)
    (files : List String) (tgz : String) (hnd : files.Nodup)
    (hmem : tgz ∈ files) (hext : hasTarGzSuffix tgz = true) :
    CleanEvent.extractAttempt tgz (extract tgz) ∈
        extractAllTarsEvents extract files ∧
      CleanEvent.remove tgz ∈ extractAllTarsEvents extract files ∧
      tgz ∉ extractAllTars files := by
  have hsel : tgz ∈ files.filter (fun f => hasTarGzSuffix f) :=
    List.mem_filter.mpr ⟨hmem, hext⟩
  refine ⟨?_, ?_, ?_⟩
  · exact List.mem_flatMap.mpr ⟨tgz, hsel, by simp⟩
  · exact List.mem_flatMap.mpr ⟨tgz, hsel, by simp⟩
  · exact not_mem_foldl_erase _ files hnd hsel

/-- Claim C10 (witness): a directory with one broken archive and one
text file — the archive is removed even though extraction fails. -/
theorem C10_archive_always_removed_witness :
    CleanEvent.extractAttempt "a.tar.gz" ExtractOutcome.notATar ∈
        extractAllTarsEvents (fun _ => ExtractOutcome.notATar)
          ["a.tar.gz", "note.txt"] ∧
      CleanEvent.remove "a.tar.gz" ∈
        extractAllTarsEvents (fun _ => ExtractOutcome.notATar)
          ["a.tar.gz", "note.txt"] ∧
      "a.tar.gz" ∉ extractAllTars ["a.tar.gz", "note.txt"] :=
  C10_archive_always_removed (fun _ => ExtractOutcome.notATar)
    ["a.tar.gz", "note.txt"] "a.tar.gz" (by decide) (by decide) (by decide)

end Crawler

